import Mathlib

/-!
Verification of the FluxFrame video pipeline worker
(`backend/worker/main.py` and `backend/worker/preprocessing.py`).

The Python worker is embedded shallowly:

* Pure numeric analysis (`preprocessing.py`) becomes pure Lean functions.
  Frame images are an abstract type `Img`; the OpenCV histogram distance
  and the optical-flow magnitude are oracle parameters
  `d, mag : Img → Img → Rat` (the orchestration logic under verification
  never inspects pixel data).  `cv2.imread` may fail to decode a frame,
  so a frame on disk is an `Option Img`, `none` for an undecodable
  frame; a call that would crash on a `None` image returns
  `Except.error` (the Python exception).
* Python floats are embedded as `Rat`; all arithmetic the worker
  performs is exact on such values.
* The stage handlers of `main.py` become pure functions from the fetched
  job record plus an environment (the external generation service,
  GridFS, ffmpeg) to a trace of MongoDB `jobs` updates, Redis queue
  pushes, and the frame sequence written out for encoding.
-/

namespace FluxFrame

section Preprocessing

variable {Img : Type}

/-- Embeds a shot segment as produced by `detect_scenes`
(a dict `start`/`end`/`type`); the `type` field is the constant
`"shot"` and is omitted.  `stop` stands for the Python key `end`,
which is a Lean keyword. -/
structure Segment where
  start : Nat
  stop : Nat
deriving DecidableEq

/-- Embeds the cut-collection loop of `preprocessing.detect_scenes`
(`for i in range(1, len(frame_paths))`).  `prev` is the previously
decoded frame, `i` the index in the original sequence of the head of
the remaining list.  A frame `cv2.imread` cannot decode is `none`, and
`cv2.resize` then raises. -/
def sceneLoop (d : Img → Img → Rat) (threshold : Rat) (prev : Img) (i : Nat) :
    List (Option Img) → Except String (List Nat)
  | [] => .ok []
  | none :: _ => .error "cv2.resize: source image is empty"
  | some curr :: rest =>
    (sceneLoop d threshold curr (i + 1) rest).map fun cuts =>
      (if d prev curr > threshold then [i] else []) ++ cuts

/-- Embeds the segment construction at the end of `detect_scenes`:
each cut starts a segment ending one before the next cut, the last
segment ending at `total_frames - 1`. -/
def segmentsOfCuts (total_frames : Nat) : List Nat → List Segment
  | [] => []
  | [c] => [⟨c, total_frames - 1⟩]
  | c :: c2 :: cs => ⟨c, c2 - 1⟩ :: segmentsOfCuts total_frames (c2 :: cs)

/-- Embeds `preprocessing.detect_scenes(frame_paths, threshold=0.3)`;
the threshold is passed explicitly (the source default is 0.3). -/
def detect_scenes (d : Img → Img → Rat) (threshold : Rat) :
    List (Option Img) → Except String (List Segment)
  | [] => .ok []
  | none :: _ => .error "cv2.resize: source image is empty"
  | some f0 :: rest =>
    (sceneLoop d threshold f0 1 rest).map fun cuts =>
      segmentsOfCuts (rest.length + 1) (0 :: cuts)

/-- Embeds the sampling loop of `analyze_motion_optical_flow`
(`for i in range(1, len(frame_paths), sample_rate)`); `srm1` is
`sample_rate - 1`, so the step `i + srm1 + 1` is the source step
`i += sample_rate` for any positive rate.  Returns the
`motion_scores` sample list of `frame_index`/`score` pairs.  The
recursion is presented on a fuel counter so that it stays structural
(the caller passes the list length; each iteration consumes at least
one list element, so the fuel never runs out and the fuel-exhausted
arm is unreachable). -/
def motionLoop (mag : Img → Img → Rat) (srm1 : Nat) :
    Nat → Img → Nat → List (Option Img) → Except String (List (Nat × Rat))
  | _, _, _, [] => .ok []
  | 0, _, _, _ :: _ => .ok []
  | _ + 1, _, _, none :: _ => .error "cv2.resize: source image is empty"
  | fuel + 1, prevGray, i, some curr :: rest =>
    (motionLoop mag srm1 fuel curr (i + srm1 + 1) (rest.drop srm1)).map
      fun samples => (i, mag prevGray curr) :: samples

/-- Embeds `preprocessing.analyze_motion_optical_flow(frame_paths,
sample_rate=5)`; returns `(avg_score, motion_scores)`.  The source
keeps a running `total_motion` and `count` alongside the sample list;
they describe exactly the collected samples, so the average is computed
from the list. -/
def analyze_motion_optical_flow (mag : Img → Img → Rat) (sample_rate : Nat)
    (frames : List (Option Img)) : Except String (Rat × List (Nat × Rat)) :=
  match frames with
  | [] => .ok (0, [])
  | none :: _ => .error "cv2.resize: source image is empty"
  | some f0 :: rest =>
    if sample_rate = 0 then .error "range() arg 3 must not be zero"
    else
      (motionLoop mag (sample_rate - 1) rest.length f0 1 rest).map
        fun samples =>
        (if samples.length > 0 then
            (samples.map Prod.snd).sum / (samples.length : Rat)
          else 0, samples)

/-- Embeds the `InterpolationPlan` dict returned by
`determine_interpolation_params`. -/
structure InterpPlan where
  factor : Int
  mode : String
  base_motion_score : Rat
deriving DecidableEq

/-- Embeds Python `int(q)` applied to a float: truncation toward zero. -/
def pyIntOfRat (q : Rat) : Int := if 0 ≤ q then ⌊q⌋ else ⌈q⌉

/-- Embeds `preprocessing.determine_interpolation_params
(avg_motion_score, fps)`. -/
def determine_interpolation_params (avg_motion_score fps : Rat) : InterpPlan :=
  let base : Int × String :=
    if avg_motion_score > 5 then (2, "conservative")
    else if avg_motion_score > 2 then (4, "balanced")
    else (8, "aggressive")
  let factor : Int :=
    if fps * (base.1 : Rat) > 240 then max 1 (pyIntOfRat (240 / fps)) else base.1
  ⟨factor, base.2, avg_motion_score⟩

/-- Embeds the analysis dict returned by `preprocessing.analyze_video`. -/
structure Analysis where
  shot_segments : List Segment
  average_score : Rat
  frame_scores : List (Nat × Rat)
  interpolation_params : InterpPlan
  frame_count : Nat
deriving DecidableEq

/-- Embeds `preprocessing.analyze_video(frames_dir, fps)`; returns
`none` (Python `None`) for an empty frame directory. -/
def analyze_video (d mag : Img → Img → Rat) (frames : List (Option Img))
    (fps : Rat) : Except String (Option Analysis) :=
  match frames with
  | [] => .ok none
  | _ => do
    let segs ← detect_scenes d (3/10) frames
    let ms ← analyze_motion_optical_flow mag 5 frames
    pure (some ⟨segs, ms.1, ms.2, determine_interpolation_params ms.1 fps,
      frames.length⟩)

end Preprocessing

section Worker

variable {Img : Type}

/-- One entry of the append-only `history` array of a job. -/
structure HistEntry where
  status : String
  timestamp : Nat
deriving DecidableEq

/-- An original frame as stored in the manifest `gridfs_frames` list. -/
structure OrigFrame where
  index : Nat
  file_id : String
deriving DecidableEq

/-- A generated frame as stored in `generated_frames`. -/
structure GenFrame where
  index : Rat
  file_id : String
  parent_start : String
  parent_end : String
deriving DecidableEq

/-- Merged view of a frame during reconstruction: only `index` (the
sort key) and `file_id` (the repository reference) are read there. -/
structure Frame where
  index : Rat
  file_id : String
deriving DecidableEq

/-- Embeds the manifest dict built by `handle_preprocess`.  Optional
fields model dictionary keys that a stored record might lack;
`interpolation_params` is `none` for the empty dict written when the
analysis returned `None`. -/
structure Manifest where
  job_id : String
  frame_count : Nat
  fps : Rat
  frame_path_template : String
  shot_segments : List Segment
  interpolation_params : Option InterpPlan
  gridfs_frames : Option (List OrigFrame)
deriving DecidableEq

/-- Embeds the job document of the `jobs` collection.  Optional fields
model absent keys; `fps` is a top-level `fps` key probed by the
postprocess fallback chain. -/
structure Job where
  status : String
  history : List HistEntry
  manifest : Option Manifest
  generated_frames : Option (List GenFrame)
  processing_stats_motion : Option Rat
  error : Option String
  final_video_id : Option String
  output_fps : Option Rat
  completed_at : Option Nat
  fps : Option Rat
deriving DecidableEq

/-- Embeds one `db.jobs.update_one` call: the `$set` fields it writes
and the history messages it `$push`es (each message receives a
timestamp from the worker clock when the update is applied). -/
structure Update where
  setStatus : Option String := none
  setError : Option String := none
  setManifest : Option Manifest := none
  setGenerated : Option (List GenFrame) := none
  setMotionScore : Option Rat := none
  setFinalVideo : Option String := none
  setOutputFps : Option Rat := none
  setCompletedAt : Bool := false
  pushHist : List String := []
deriving DecidableEq

/-- Embeds `log(job_id, message)`: one update that pushes one history
entry (the console print has no persistent effect). -/
def log (message : String) : Update := { pushHist := [message] }

/-- Timestamps (`datetime.utcnow()`) are drawn from an abstract worker
clock mapping the k-th history push of a run to a time. -/
def histEntriesFrom (clock : Nat → Nat) (k : Nat) : List String → List HistEntry
  | [] => []
  | m :: ms => ⟨m, clock k⟩ :: histEntriesFrom clock (k + 1) ms

/-- Applies one update to a job record; `k` is the number of history
pushes already performed in this run. -/
def Update.apply (u : Update) (clock : Nat → Nat) (k : Nat) (j : Job) : Job :=
  { status := u.setStatus.getD j.status
    history := j.history ++ histEntriesFrom clock k u.pushHist
    manifest := u.setManifest <|> j.manifest
    generated_frames := u.setGenerated <|> j.generated_frames
    processing_stats_motion := u.setMotionScore <|> j.processing_stats_motion
    error := u.setError <|> j.error
    final_video_id := u.setFinalVideo <|> j.final_video_id
    output_fps := u.setOutputFps <|> j.output_fps
    completed_at := if u.setCompletedAt then some (clock k) else j.completed_at
    fps := j.fps }

/-- Applies a trace of updates in order, threading the push counter. -/
def applyTrace (clock : Nat → Nat) (j : Job) (k : Nat) : List Update → Job
  | [] => j
  | u :: tr => applyTrace clock (u.apply clock k j) (k + u.pushHist.length) tr

/-- Runs a handler trace against a job record from a fresh counter. -/
def runTrace (clock : Nat → Nat) (j : Job) (tr : List Update) : Job :=
  applyTrace clock j 0 tr

/-- Externally visible outcome of one stage-handler invocation: the
`jobs`-collection updates in program order, the Redis `rpush`es, and
the frame files written into the reconstruction directory (postprocess
only), in filename order. -/
structure HandlerOut where
  trace : List Update
  queues : List String
  encoded : List Frame
deriving DecidableEq

/-- Embeds the result of `POST /generate_lowres` for one pair: a 200
response carrying `generated_frame_id`, a non-200 response with its
body text, or a raised transport exception. -/
inductive GenResult
  | ok (generated_frame_id : String)
  | httpErr (text : String)
  | exn (msg : String)
deriving DecidableEq

/-- The demo pair cap (`limit = 5` in `handle_inference`). -/
def limit : Nat := 5

def QUEUE_INFERENCE : String := "inference_queue"

def QUEUE_POSTPROCESS : String := "postprocess_queue"

/-- Embeds the pair list the inference loop walks: the manifest frames
sorted by index (`frames.sort(key=...)`, a stable sort like Python
sort), in consecutive pairs `frames[i], frames[i+1]`, truncated to the
first `min(len(frames) - 1, limit)` iterations and enumerated by the
loop counter `i`. -/
def framePairs (fr : List OrigFrame) : List (Nat × OrigFrame × OrigFrame) :=
  let frames := List.insertionSort (fun a b => a.index ≤ b.index) fr
  (((frames.zip frames.tail).take limit)).enum

/-- Embeds one iteration of the inference loop: build the payload for
the pair, call the generation service, and either record the generated
frame at index `start + 0.5` (with both parent references) or log the
failure and continue. -/
def inferStep (env : Nat → GenResult) (acc : List Update × List GenFrame)
    (p : Nat × OrigFrame × OrigFrame) : List Update × List GenFrame :=
  match env p.1 with
  | .ok gid =>
    (acc.1 ++ [log ("Generated frame " ++ toString p.2.1.index ++ ".5")],
     acc.2 ++ [⟨(p.2.1.index : Rat) + 1/2, gid, p.2.1.file_id,
       p.2.2.file_id⟩])
  | .httpErr t =>
    (acc.1 ++ [log ("Base Model error for pair " ++ toString p.1 ++ ": "
      ++ t)], acc.2)
  | .exn e =>
    (acc.1 ++ [log ("Error calling Base Model: " ++ e)], acc.2)

/-- Embeds `handle_inference(task)`.  `env i` is the generation
service response for pair `i`; `job` is the record returned by
`db.jobs.find_one`. -/
def handle_inference (env : Nat → GenResult) (job : Option Job) : HandlerOut :=
  let t0 := [log "Started Inference"]
  let missing := t0 ++ [log "Inference Failed: Missing manifest or frames"]
  match job with
  | none => ⟨missing, [], []⟩
  | some j =>
    match j.manifest with
    | none => ⟨missing, [], []⟩
    | some m =>
      match m.gridfs_frames with
      | none => ⟨missing, [], []⟩
      | some fr =>
        let res := (framePairs fr).foldl (inferStep env) ([], [])
        ⟨t0 ++ [log ("Processing first " ++ toString limit
              ++ " frame pairs for demo...")]
            ++ res.1
            ++ [{ setStatus := some "inferred", setGenerated := some res.2 }]
            ++ [log "Finished Inference -> Pushed to Postprocess"],
         [QUEUE_POSTPROCESS], []⟩

/-- Embeds `job.get("manifest", {}).get("gridfs_frames", [])`. -/
def origFramesOf (j : Job) : List OrigFrame :=
  match j.manifest with
  | none => []
  | some m => m.gridfs_frames.getD []

/-- Embeds `job.get("generated_frames", [])`. -/
def genFramesOf (j : Job) : List GenFrame := j.generated_frames.getD []

/-- Embeds `all_frames = original_frames + generated_frames` followed
by `all_frames.sort(key=lambda x: x["index"])` (a stable sort, like
Python sort). -/
def mergedFrames (j : Job) : List Frame :=
  List.insertionSort (fun a b => a.index ≤ b.index)
    ((origFramesOf j).map (fun f => ⟨(f.index : Rat), f.file_id⟩)
      ++ (genFramesOf j).map (fun g => ⟨g.index, g.file_id⟩))

/-- Embeds the `original_fps` fallback chain: the manifest `fps`, else
a top-level job `fps`, else the default 30.  A manifest built by
`handle_preprocess` always carries the `fps` key, and the embedding
makes that key mandatory, so a present manifest always supplies it. -/
def baseFpsOf (j : Job) : Rat :=
  match j.manifest with
  | some m => m.fps
  | none => j.fps.getD 30

/-- Embeds the `target_fps` computation with its zero-division
fallback (`len(all_frames)` over `len(original_frames)`). -/
def targetFpsOf (j : Job) : Rat :=
  if (origFramesOf j).length > 0 then
    baseFpsOf j * (((mergedFrames j).length : Rat)
      / ((origFramesOf j).length : Rat))
  else baseFpsOf j

/-- Environment of `handle_postprocess`: the GridFS `fs.get` outcome
per file id (the error carries the exception text), presence of the
extracted audio file (it only selects which ffmpeg invocation is
built), the ffmpeg encode outcome (the error carries the decoded
stderr), and the GridFS id assigned to the uploaded final video. -/
structure PostEnv where
  resolve : String → Except String Unit
  hasAudio : Bool
  encodeResult : Except String Unit
  final_id : String

/-- Embeds one iteration of the reconstruction download loop over the
enumerated merged frames: a successful `fs.get` writes the file
`frame_{i:06d}.png`, a failure logs and continues. -/
def downloadStep (resolve : String → Except String Unit)
    (acc : List Update × List Frame) (p : Nat × Frame) :
    List Update × List Frame :=
  match resolve p.2.file_id with
  | .ok _ => (acc.1, acc.2 ++ [p.2])
  | .error e =>
    (acc.1 ++ [log ("Error downloading frame " ++ toString p.1 ++ " ("
        ++ p.2.file_id ++ "): " ++ e)], acc.2)

/-- The reconstruction progress message of `handle_postprocess`. -/
def reconMsg (j : Job) : String :=
  "Reconstructing video with " ++ toString (mergedFrames j).length
    ++ " frames (Original: " ++ toString (origFramesOf j).length
    ++ ", Generated: " ++ toString (genFramesOf j).length ++ ")"

/-- The target-fps message of `handle_postprocess`; the source renders
the numbers as fixed-point decimals, abstracted here as exact
rationals. -/
def fpsMsg (j : Job) : String :=
  "Target FPS: " ++ toString (targetFpsOf j).num ++ "/"
    ++ toString (targetFpsOf j).den ++ " (Base: "
    ++ toString (baseFpsOf j).num ++ "/"
    ++ toString (baseFpsOf j).den ++ ")"

/-- Embeds `handle_postprocess(task)`.  The download loop writes one
file per merged position whose repository fetch succeeds and logs and
continues on a failure; the files written are the `encoded` sequence
read by the encoder. -/
def handle_postprocess (env : PostEnv) (job : Option Job) : HandlerOut :=
  let t0 := [log "Started Postprocessing"]
  match job with
  | none => ⟨t0 ++ [log "Postprocessing Failed: Job not found"], [], []⟩
  | some j =>
    let all_frames := mergedFrames j
    let t1 := t0 ++ [log (reconMsg j)]
    let dl := all_frames.enum.foldl (downloadStep env.resolve) ([], [])
    let target_fps := targetFpsOf j
    let t2 := t1 ++ dl.1 ++ [log (fpsMsg j)]
    match env.encodeResult with
    | .ok _ =>
      ⟨t2 ++ [log "FFmpeg encoding complete"]
          ++ [{ setStatus := some "completed",
                setFinalVideo := some env.final_id,
                setOutputFps := some target_fps, setCompletedAt := true,
                pushHist := ["completed"] }]
          ++ [log ("Job Completed! Final Video ID: " ++ env.final_id)],
       [], dl.2⟩
    | .error e =>
      ⟨t2 ++ [log ("FFmpeg Reassembly Error: " ++ e)]
          ++ [{ setStatus := some "failed",
                setError := some ("Reassembly failed: " ++ e) }],
       [], dl.2⟩

/-- Stream metadata of `ffmpeg.probe`: whether a video stream exists,
its dimensions and `r_frame_rate`, and whether an audio stream exists. -/
structure ProbeData where
  hasVideoStream : Bool
  width : Nat
  height : Nat
  r_frame_rate : String
  hasAudioStream : Bool

/-- The pending-work item popped from a queue. -/
structure WorkTask where
  job_id : String
  video_id : String
  file_path : String

/-- Environment of `handle_preprocess`: the `ffmpeg.probe` outcome,
the two ffmpeg extraction runs, the decoded contents of the frame
directory in sorted filename order (`none` for a file `cv2.imread`
cannot decode), the GridFS id assigned per upload, and the two OpenCV
oracles. -/
structure PreEnv (Img : Type) where
  probe : Except String ProbeData
  extractFrames : Except String Unit
  extractAudio : Except String Unit
  frames : List (Option Img)
  putId : Nat → String
  d : Img → Img → Rat
  mag : Img → Img → Rat

/-- Embeds the enumerated GridFS upload of the extracted frames
(`for idx, filename in enumerate(frame_files)`): frame `idx` is stored
under the id the repository assigns to the idx-th put. -/
def canonFrames (putId : Nat → String) (n : Nat) : List OrigFrame :=
  (List.range n).map fun idx => OrigFrame.mk idx (putId idx)

/-- Embeds Python `s.split(sep)` for a one-character separator on the
character list: split at every occurrence of the separator (an empty
input gives one empty part, like Python). -/
def splitCharList (sep : Char) : List Char → List (List Char)
  | [] => [[]]
  | c :: rest =>
    if c = sep then [] :: splitCharList sep rest
    else
      match splitCharList sep rest with
      | [] => [[c]]
      | hd :: tl => (c :: hd) :: tl

/-- Embeds Python `s.split(sep)` on strings. -/
def pySplit (sep : Char) (s : String) : List String :=
  (splitCharList sep s.data).map fun cs => String.mk cs

/-- Accumulator loop for a base-10 digit sequence; any non-digit
character raises ValueError (`none`). -/
def pyDigitsAux : List Char → Nat → Option Nat
  | [], acc => some acc
  | c :: rest, acc =>
    if c.isDigit then pyDigitsAux rest (acc * 10 + (c.toNat - 48))
    else none

/-- Strips leading whitespace characters. -/
def dropSpaces : List Char → List Char
  | [] => []
  | c :: rest => if c.isWhitespace then dropSpaces rest else c :: rest

/-- Embeds Python `int(s)` in base 10: optional sign and at least one
digit, surrounding whitespace tolerated; anything else raises
ValueError, returned as `none`. -/
def pyInt (s : String) : Option Int :=
  match dropSpaces (dropSpaces s.data.reverse).reverse with
  | [] => none
  | c :: rest =>
    if c = Char.ofNat 45 then
      match rest with
      | [] => none
      | _ => (pyDigitsAux rest 0).map fun n => -(n : Int)
    else if c = Char.ofNat 43 then
      match rest with
      | [] => none
      | _ => (pyDigitsAux rest 0).map fun n => (n : Int)
    else (pyDigitsAux (c :: rest) 0).map fun n => (n : Int)

/-- Embeds `map(int, parts)`: every part must parse as an integer or
the whole conversion raises ValueError. -/
def pyIntList : List String → Option (List Int)
  | [] => some []
  | s :: rest =>
    match pyInt s with
    | none => none
    | some n => (pyIntList rest).map (n :: ·)

/-- Embeds the frame-rate parsing of `handle_preprocess`:
`num, den = map(int, r_frame_rate.split(slash))` followed by
`fps = num / den if den > 0 else 30.0`.  The error strings stand for
the ValueError raised by `int()` or by tuple unpacking (a split that
does not yield exactly two parts). -/
def parse_fps (s : String) : Except String Rat :=
  match pyIntList (pySplit (Char.ofNat 47) s) with
  | none => .error "invalid literal for int() with base 10"
  | some [num, den] => .ok (if den > 0 then (num : Rat) / (den : Rat) else 30)
  | some [_] => .error "not enough values to unpack (expected 2, got 1)"
  | some _ => .error "cannot unpack split parts to exactly 2 values"

/-- Embeds the `except ffmpeg.Error` branch of `handle_preprocess`. -/
def ffmpegErrTrace (e : String) : List Update :=
  [log ("FFmpeg Error: " ++ e),
   { setStatus := some "failed", setError := some e }]

/-- Embeds the generic `except Exception` branch of
`handle_preprocess`. -/
def genericErrTrace (e : String) : List Update :=
  [log ("Preprocessing Error: " ++ e),
   { setStatus := some "failed", setError := some e }]

/-- Remainder of `handle_preprocess` after audio extraction: count the
extracted frames, run `preprocessing.analyze_video`, upload the frames
to GridFS, write the manifest plus status update, and enqueue
inference.  The update of the `videos` collection never touches the
job record and is not traced. -/
def preprocessTail (env : PreEnv Img) (task : WorkTask) (fps : Rat)
    (t : List Update) : HandlerOut :=
  let frames_dir := "/media/frames/" ++ task.job_id
  let frame_count := env.frames.length
  let t3 := t ++ [log
    "Running advanced preprocessing (scene detection, motion analysis)..."]
  match analyze_video env.d env.mag env.frames fps with
  | .error e => ⟨t3 ++ genericErrTrace e, [], []⟩
  | .ok analysis =>
    let t4 := t3 ++ [log "Uploading frames to GridFS..."]
    let gridfs_frames := canonFrames env.putId env.frames.length
    let manifest : Manifest :=
      { job_id := task.job_id
        frame_count := frame_count
        fps := fps
        frame_path_template := frames_dir ++ "/frame_%06d.png"
        shot_segments := (analysis.map Analysis.shot_segments).getD []
        interpolation_params := analysis.map Analysis.interpolation_params
        gridfs_frames := some gridfs_frames }
    ⟨t4 ++ [{ setStatus := some "preprocessed", setManifest := some manifest,
              setMotionScore := some ((analysis.map Analysis.average_score).getD 0),
              pushHist := ["frames_extracted_and_analyzed"] }]
        ++ [log "Finished Preprocessing -> Pushed to Inference"],
     [QUEUE_INFERENCE], []⟩

/-- Embeds `handle_preprocess(task)`. -/
def handle_preprocess (env : PreEnv Img) (task : WorkTask) : HandlerOut :=
  let frames_dir := "/media/frames/" ++ task.job_id
  let t0 := [log "Started Preprocessing: Frame Extraction"]
  match env.probe with
  | .error e => ⟨t0 ++ ffmpegErrTrace e, [], []⟩
  | .ok p =>
    if p.hasVideoStream = false then
      -- `video_stream` is None and `int(None[...])` raises a
      -- TypeError, caught by the generic handler.
      ⟨t0 ++ genericErrTrace "NoneType object is not subscriptable", [], []⟩
    else
      match parse_fps p.r_frame_rate with
      | .error e => ⟨t0 ++ genericErrTrace e, [], []⟩
      | .ok fps =>
        let t1 := t0 ++ [log ("Extracting frames from " ++ task.file_path
          ++ " to " ++ frames_dir)]
        match env.extractFrames with
        | .error e => ⟨t1 ++ ffmpegErrTrace e, [], []⟩
        | .ok _ =>
          if p.hasAudioStream then
            let t2 := t1 ++ [log "Extracting audio"]
            match env.extractAudio with
            | .error e => ⟨t2 ++ ffmpegErrTrace e, [], []⟩
            | .ok _ => preprocessTail env task fps t2
          else preprocessTail env task fps t1

end Worker

section MoreDefs

/-- Factor column of the interpolation policy table, stated from the
spec text (section 4.5) for comparison with the source implementation. -/
def specFactor (m : Rat) : Int := if m > 5 then 2 else if m > 2 then 4 else 8

/-- Mode column of the interpolation policy table, stated from the
spec text (section 4.5). -/
def specMode (m : Rat) : String :=
  if m > 5 then "conservative" else if m > 2 then "balanced" else "aggressive"

/-- Pure twin of `sceneLoop` on fully decodable frames: the indices
(the first carrying label `i`) at which the histogram distance from
the previous frame exceeds the threshold, i.e. the detected cuts. -/
def sceneCuts {Img : Type} (d : Img → Img → Rat) (t : Rat) (prev : Img)
    (i : Nat) : List Img → List Nat
  | [] => []
  | c :: rest =>
    (if d prev c > t then [i] else []) ++ sceneCuts d t c (i + 1) rest

/-- The log message `inferStep` pushes for pair `p`. -/
def pairMsg (env : Nat → GenResult) (p : Nat × OrigFrame × OrigFrame) :
    String :=
  match env p.1 with
  | .ok _ => "Generated frame " ++ toString p.2.1.index ++ ".5"
  | .httpErr t => "Base Model error for pair " ++ toString p.1 ++ ": " ++ t
  | .exn e => "Error calling Base Model: " ++ e

/-- The generated frame `inferStep` records for pair `p`, if any. -/
def pairGen (env : Nat → GenResult) (p : Nat × OrigFrame × OrigFrame) :
    Option GenFrame :=
  match env p.1 with
  | .ok gid =>
    some ⟨(p.2.1.index : Rat) + 1/2, gid, p.2.1.file_id, p.2.2.file_id⟩
  | _ => none

/-- The download-failure messages `downloadStep` pushes for entry `p`
(empty on a successful fetch). -/
def dlMsg (resolve : String → Except String Unit) (p : Nat × Frame) :
    List String :=
  match resolve p.2.file_id with
  | .ok _ => []
  | .error e => ["Error downloading frame " ++ toString p.1 ++ " ("
      ++ p.2.file_id ++ "): " ++ e]

/-- Whether an `Except` result is a success. -/
def exceptOk {α : Type} : Except String α → Bool
  | .ok _ => true
  | .error _ => false

/-- Whether a generation response is a 200 success. -/
def genOk : GenResult → Bool
  | .ok _ => true
  | _ => false

/-- The generated frames the inference stage stores for a canonical
N-frame manifest under the per-pair responses `env`. -/
def expectedGens (env : Nat → GenResult) (putId : Nat → String) (N : Nat) :
    List GenFrame :=
  (List.range (min (N - 1) limit)).filterMap fun i =>
    match env i with
    | .ok gid => some ⟨(i : Rat) + 1/2, gid, putId i, putId (i + 1)⟩
    | _ => none

/-- The history messages a trace pushes, in order. -/
def pushesOf (tr : List Update) : List String :=
  (tr.map Update.pushHist).flatten

/-- A freshly created job record (status `queued`, no optional keys). -/
def jobQueued : Job :=
  ⟨"queued", [], none, none, none, none, none, none, none, none⟩

/-- A stored job record lacking the `manifest` key. -/
def jobNoManifest : Job :=
  ⟨"preprocessed", [], none, none, none, none, none, none, none, none⟩

/-- A two-frame manifest as preprocessing would build it. -/
def manifest2 : Manifest :=
  ⟨"j1", 2, 30, "/media/frames/j1/frame_%06d.png", [⟨0, 1⟩], none,
   some [⟨0, "a"⟩, ⟨1, "b"⟩]⟩

/-- A job already in the terminal `completed` state but still carrying
its manifest. -/
def jobCompleted : Job :=
  ⟨"completed", [], some manifest2, none, none, none, none, none, none, none⟩

/-- Preprocess environment whose probe reports the frame-rate string
`"30"` (no slash). -/
def envC10 : PreEnv Nat :=
  { probe := .ok ⟨true, 640, 480, "30", false⟩, extractFrames := .ok (),
    extractAudio := .ok (), frames := [], putId := fun _ => "x",
    d := fun _ _ => 0, mag := fun _ _ => 0 }

def taskC10 : WorkTask := ⟨"j10", "v10", "/media/raw/c.mp4"⟩

/-- End-to-end scenario: a readable 10-frame 30fps container without
audio, all frames decodable, zero histogram distance (no cuts) and
constant flow magnitude 1 (motion score 1.0). -/
def envC1 : PreEnv Nat :=
  { probe := .ok ⟨true, 640, 480, "30/1", false⟩, extractFrames := .ok (),
    extractAudio := .ok (), frames := (List.range 10).map some,
    putId := fun i => "f" ++ toString i,
    d := fun _ _ => 0, mag := fun _ _ => 1 }

def taskC1 : WorkTask := ⟨"job1", "vid1", "/media/raw/in.mp4"⟩

/-- The job record after the preprocess stage of the C1 scenario. -/
def jobC1a : Job := runTrace id jobQueued (handle_preprocess envC1 taskC1).trace

/-- Inference outcome of the C1 scenario: every pair request succeeds. -/
def outC1b : HandlerOut :=
  handle_inference (fun i => .ok ("g" ++ toString i)) (some jobC1a)

/-- The job record after the inference stage of the C1 scenario. -/
def jobC1b : Job := runTrace id jobC1a outC1b.trace

/-- Postprocess environment of the C1 scenario: every repository fetch
and the encode succeed, no audio. -/
def postEnvC1 : PostEnv := ⟨fun _ => .ok (), false, .ok (), "finalvid"⟩

def outC1c : HandlerOut := handle_postprocess postEnvC1 (some jobC1b)

/-- The job record after the postprocess stage of the C1 scenario. -/
def jobC1c : Job := runTrace id jobC1b outC1c.trace

/-- Reconstruction scenario for C2: two original frames, one generated
frame, and a repository in which the fetch of frame `"a"` fails. -/
def manifestC2 : Manifest := ⟨"j2", 2, 30, "t", [], none,
  some [⟨0, "a"⟩, ⟨1, "b"⟩]⟩

def jobC2 : Job := ⟨"inferred", [], some manifestC2,
  some [⟨1/2, "g", "a", "b"⟩], none, none, none, none, none, none⟩

def postEnvC2 : PostEnv :=
  ⟨fun s => if s = "a" then .error "missing chunk" else .ok (), false,
   .ok (), "fv"⟩

/-- Mixed-outcome generation service for the C9 witness: pair 2 gets a
non-200 response, the others succeed. -/
def envC9 : Nat → GenResult :=
  fun i => if i = 2 then .httpErr "500 backend down"
    else .ok ("g" ++ toString i)

def fidC9 : Nat → String := fun i => "f" ++ toString i

def manifestC9 : Manifest := ⟨"j9", 6, 30, "t", [], none,
  some (canonFrames fidC9 6)⟩

def jobC9 : Job := ⟨"preprocessed", [], some manifestC9, none, none, none,
  none, none, none, none⟩

def postEnvC9 : PostEnv := ⟨fun _ => .ok (), false, .ok (), "fv9"⟩

/-- The job record after the inference stage of the C9 witness run. -/
def jobC9b : Job :=
  runTrace id jobC9 (handle_inference envC9 (some jobC9)).trace

instance : IsTotal Frame (fun a b => a.index ≤ b.index) :=
  ⟨fun a b => le_total a.index b.index⟩

instance : IsTrans Frame (fun a b => a.index ≤ b.index) :=
  ⟨fun _ _ _ h1 h2 => le_trans h1 h2⟩

instance : IsTotal OrigFrame (fun a b => a.index ≤ b.index) :=
  ⟨fun a b => le_total a.index b.index⟩

instance : IsTrans OrigFrame (fun a b => a.index ≤ b.index) :=
  ⟨fun _ _ _ h1 h2 => le_trans h1 h2⟩

end MoreDefs

section HelperLemmas

lemma histEntriesFrom_append (clock : Nat → Nat) (k : Nat) (a b : List String) :
    histEntriesFrom clock k (a ++ b) =
      histEntriesFrom clock k a ++ histEntriesFrom clock (k + a.length) b := by
  induction a generalizing k with
  | nil => simp [histEntriesFrom]
  | cons m ms ih =>
    have h : k + 1 + ms.length = k + (ms.length + 1) := by omega
    simp only [List.cons_append, histEntriesFrom, List.append_eq, ih,
      List.length_cons, h]

lemma applyTrace_status (clock : Nat → Nat) (j : Job) (k : Nat)
    (tr : List Update) :
    (applyTrace clock j k tr).status =
      tr.foldl (fun s u => u.setStatus.getD s) j.status := by
  induction tr generalizing j k with
  | nil => rfl
  | cons u tr ih => simp [applyTrace, ih, Update.apply]

lemma applyTrace_manifest (clock : Nat → Nat) (j : Job) (k : Nat)
    (tr : List Update) :
    (applyTrace clock j k tr).manifest =
      tr.foldl (fun g u => u.setManifest <|> g) j.manifest := by
  induction tr generalizing j k with
  | nil => rfl
  | cons u tr ih => simp [applyTrace, ih, Update.apply]

lemma applyTrace_generated (clock : Nat → Nat) (j : Job) (k : Nat)
    (tr : List Update) :
    (applyTrace clock j k tr).generated_frames =
      tr.foldl (fun g u => u.setGenerated <|> g) j.generated_frames := by
  induction tr generalizing j k with
  | nil => rfl
  | cons u tr ih => simp [applyTrace, ih, Update.apply]

lemma applyTrace_output_fps (clock : Nat → Nat) (j : Job) (k : Nat)
    (tr : List Update) :
    (applyTrace clock j k tr).output_fps =
      tr.foldl (fun g u => u.setOutputFps <|> g) j.output_fps := by
  induction tr generalizing j k with
  | nil => rfl
  | cons u tr ih => simp [applyTrace, ih, Update.apply]

lemma applyTrace_error (clock : Nat → Nat) (j : Job) (k : Nat)
    (tr : List Update) :
    (applyTrace clock j k tr).error =
      tr.foldl (fun g u => u.setError <|> g) j.error := by
  induction tr generalizing j k with
  | nil => rfl
  | cons u tr ih => simp [applyTrace, ih, Update.apply]

lemma applyTrace_history (clock : Nat → Nat) (j : Job) (k : Nat)
    (tr : List Update) :
    (applyTrace clock j k tr).history =
      j.history ++ histEntriesFrom clock k (pushesOf tr) := by
  induction tr generalizing j k with
  | nil => simp [applyTrace, pushesOf, histEntriesFrom]
  | cons u tr ih =>
    simp only [applyTrace, ih, Update.apply, pushesOf, List.map_cons,
      List.flatten_cons, histEntriesFrom_append, List.append_assoc]

lemma foldl_status_none :
    ∀ (tr : List Update) (s : String), (∀ u ∈ tr, u.setStatus = none) →
      tr.foldl (fun s u => u.setStatus.getD s) s = s
  | [], _, _ => rfl
  | u :: tr, s, h => by
    have hu := h u (List.mem_cons_self u tr)
    simp only [List.foldl_cons, hu, Option.getD_none]
    exact foldl_status_none tr s fun v hv => h v (List.mem_cons_of_mem u hv)

lemma foldl_orElse_none {β : Type} (f : Update → Option β) :
    ∀ (tr : List Update) (g : Option β), (∀ u ∈ tr, f u = none) →
      tr.foldl (fun g u => f u <|> g) g = g
  | [], _, _ => rfl
  | u :: tr, g, h => by
    have hu := h u (List.mem_cons_self u tr)
    simp only [List.foldl_cons, hu, Option.none_orElse]
    exact foldl_orElse_none f tr g fun v hv => h v (List.mem_cons_of_mem u hv)

lemma log_mem_flatten_map {α : Type} (g : α → List String) (ps : List α)
    (u : Update) (hu : u ∈ ((ps.map fun p => (g p).map log)).flatten) :
    ∃ m, u = log m := by
  rw [List.mem_flatten] at hu
  rcases hu with ⟨l, hl, hul⟩
  rw [List.mem_map] at hl
  rcases hl with ⟨p, _, rfl⟩
  rw [List.mem_map] at hul
  rcases hul with ⟨m, _, rfl⟩
  exact ⟨m, rfl⟩

end HelperLemmas

section InferenceShape

lemma inferStep_eq (env : Nat → GenResult)
    (acc : List Update × List GenFrame) (p : Nat × OrigFrame × OrigFrame) :
    inferStep env acc p
      = (acc.1 ++ [log (pairMsg env p)], acc.2 ++ (pairGen env p).toList) := by
  unfold inferStep pairMsg pairGen
  cases env p.1 <;> simp

lemma inferFold (env : Nat → GenResult) :
    ∀ (ps : List (Nat × OrigFrame × OrigFrame))
      (acc : List Update × List GenFrame),
      ps.foldl (inferStep env) acc
        = (acc.1 ++ ps.map (fun p => log (pairMsg env p)),
           acc.2 ++ ps.filterMap (pairGen env))
  | [], acc => by simp
  | p :: ps, acc => by
    rw [List.foldl_cons, inferStep_eq, inferFold env ps]
    cases hp : pairGen env p <;>
      simp [List.filterMap_cons, hp, List.append_assoc]

lemma handle_inference_eq (env : Nat → GenResult) (j : Job) (m : Manifest)
    (fr : List OrigFrame) (hm : j.manifest = some m)
    (hg : m.gridfs_frames = some fr) :
    handle_inference env (some j)
      = ⟨[log "Started Inference",
          log ("Processing first " ++ toString limit
            ++ " frame pairs for demo...")]
          ++ (framePairs fr).map (fun p => log (pairMsg env p))
          ++ [{ setStatus := some "inferred",
                setGenerated :=
                  some ((framePairs fr).filterMap (pairGen env)) },
              log "Finished Inference -> Pushed to Postprocess"],
         [QUEUE_POSTPROCESS], []⟩ := by
  simp [handle_inference, hm, hg, inferFold, List.append_assoc]

lemma runTrace_inference_status (env : Nat → GenResult) (j : Job)
    (m : Manifest) (fr : List OrigFrame) (hm : j.manifest = some m)
    (hg : m.gridfs_frames = some fr) (clock : Nat → Nat) :
    (runTrace clock j (handle_inference env (some j)).trace).status
      = "inferred" := by
  rw [handle_inference_eq env j m fr hm hg, runTrace, applyTrace_status]
  rw [List.foldl_append, List.foldl_append]
  simp [log]

lemma runTrace_inference_generated (env : Nat → GenResult) (j : Job)
    (m : Manifest) (fr : List OrigFrame) (hm : j.manifest = some m)
    (hg : m.gridfs_frames = some fr) (clock : Nat → Nat) :
    (runTrace clock j (handle_inference env (some j)).trace).generated_frames
      = some ((framePairs fr).filterMap (pairGen env)) := by
  rw [handle_inference_eq env j m fr hm hg, runTrace, applyTrace_generated]
  rw [List.foldl_append, List.foldl_append]
  simp [log]

lemma runTrace_inference_manifest (env : Nat → GenResult) (j : Job)
    (m : Manifest) (fr : List OrigFrame) (hm : j.manifest = some m)
    (hg : m.gridfs_frames = some fr) (clock : Nat → Nat) :
    (runTrace clock j (handle_inference env (some j)).trace).manifest
      = j.manifest := by
  rw [handle_inference_eq env j m fr hm hg, runTrace, applyTrace_manifest]
  rw [List.foldl_append, List.foldl_append]
  have hB : ∀ u ∈ (framePairs fr).map (fun p => log (pairMsg env p)),
      u.setManifest = none := by
    intro u hu
    rw [List.mem_map] at hu
    rcases hu with ⟨p, _, rfl⟩
    rfl
  rw [foldl_orElse_none _ _ _ hB]
  simp [log]

end InferenceShape

section PostprocessShape

lemma downloadStep_eq (resolve : String → Except String Unit)
    (acc : List Update × List Frame) (p : Nat × Frame) :
    downloadStep resolve acc p
      = (acc.1 ++ (dlMsg resolve p).map log,
         acc.2 ++ if exceptOk (resolve p.2.file_id) then [p.2] else []) := by
  unfold downloadStep dlMsg exceptOk
  cases resolve p.2.file_id <;> simp

lemma downloadFold (resolve : String → Except String Unit) :
    ∀ (ps : List (Nat × Frame)) (acc : List Update × List Frame),
      ps.foldl (downloadStep resolve) acc
        = (acc.1 ++ ((ps.map fun p => (dlMsg resolve p).map log)).flatten,
           acc.2 ++ (ps.map Prod.snd).filter
             (fun f => exceptOk (resolve f.file_id)))
  | [], acc => by simp
  | p :: ps, acc => by
    rw [List.foldl_cons, downloadStep_eq, downloadFold resolve ps]
    cases hr : resolve p.2.file_id <;>
      simp [dlMsg, exceptOk, hr, List.filter_cons, List.append_assoc]

lemma handle_postprocess_eq_ok (penv : PostEnv) (j : Job)
    (henc : penv.encodeResult = .ok ()) :
    handle_postprocess penv (some j)
      = ⟨[log "Started Postprocessing", log (reconMsg j)]
          ++ (((mergedFrames j).enum.map
              fun p => (dlMsg penv.resolve p).map log)).flatten
          ++ [log (fpsMsg j), log "FFmpeg encoding complete",
              { setStatus := some "completed",
                setFinalVideo := some penv.final_id,
                setOutputFps := some (targetFpsOf j), setCompletedAt := true,
                pushHist := ["completed"] },
              log ("Job Completed! Final Video ID: " ++ penv.final_id)],
         [],
         (mergedFrames j).filter
           (fun f => exceptOk (penv.resolve f.file_id))⟩ := by
  simp [handle_postprocess, henc, downloadFold, List.enum_map_snd,
    List.append_assoc]

lemma handle_postprocess_eq_err (penv : PostEnv) (j : Job) (e : String)
    (henc : penv.encodeResult = .error e) :
    handle_postprocess penv (some j)
      = ⟨[log "Started Postprocessing", log (reconMsg j)]
          ++ (((mergedFrames j).enum.map
              fun p => (dlMsg penv.resolve p).map log)).flatten
          ++ [log (fpsMsg j), log ("FFmpeg Reassembly Error: " ++ e),
              { setStatus := some "failed",
                setError := some ("Reassembly failed: " ++ e) }],
         [],
         (mergedFrames j).filter
           (fun f => exceptOk (penv.resolve f.file_id))⟩ := by
  simp [handle_postprocess, henc, downloadFold, List.enum_map_snd,
    List.append_assoc]

lemma runTrace_postprocess_status_ok (penv : PostEnv) (j : Job)
    (henc : penv.encodeResult = .ok ()) (clock : Nat → Nat) :
    (runTrace clock j (handle_postprocess penv (some j)).trace).status
      = "completed" := by
  rw [handle_postprocess_eq_ok penv j henc, runTrace, applyTrace_status]
  rw [List.foldl_append, List.foldl_append]
  simp [log]

lemma runTrace_postprocess_output_fps (penv : PostEnv) (j : Job)
    (henc : penv.encodeResult = .ok ()) (clock : Nat → Nat) :
    (runTrace clock j (handle_postprocess penv (some j)).trace).output_fps
      = some (targetFpsOf j) := by
  rw [handle_postprocess_eq_ok penv j henc, runTrace, applyTrace_output_fps]
  rw [List.foldl_append, List.foldl_append]
  have hB : ∀ u ∈ (((mergedFrames j).enum.map
      fun p => (dlMsg penv.resolve p).map log)).flatten,
      u.setOutputFps = none := by
    intro u hu
    rcases log_mem_flatten_map _ _ u hu with ⟨m2, rfl⟩
    rfl
  rw [foldl_orElse_none _ _ _ hB]
  simp [log]

end PostprocessShape

/-- C7: for every motion score m and source frame rate fps, the
Interpolation Planner returns factor 2 and mode conservative when
m > 5.0, factor 4 and mode balanced when 2.0 < m ≤ 5.0, and factor 8
and mode aggressive when m ≤ 2.0; then, only if fps * factor > 240,
the factor is replaced by max(1, floor(240 / fps)); the cap is applied
after the table lookup and never changes the mode. -/
theorem C7_interpolation_policy (m fps : Rat) :
    determine_interpolation_params m fps =
      { factor := if fps * (specFactor m : Rat) > 240
            then max 1 ⌊(240 : Rat) / fps⌋ else specFactor m,
        mode := specMode m,
        base_motion_score := m } := by
  have hstep : determine_interpolation_params m fps =
      { factor := if fps * (specFactor m : Rat) > 240
            then max 1 (pyIntOfRat ((240 : Rat) / fps)) else specFactor m,
        mode := specMode m,
        base_motion_score := m } := by
    simp only [determine_interpolation_params, specFactor, specMode]
    by_cases h5 : m > 5 <;> by_cases h2 : m > 2 <;> simp [h5, h2]
  rw [hstep]
  by_cases hc : fps * (specFactor m : Rat) > 240
  · have hpos : (0 : Rat) < (specFactor m : Rat) := by
      unfold specFactor; split_ifs <;> norm_num
    have hfps : 0 < fps := by nlinarith
    have h0 : (0 : Rat) ≤ 240 / fps := by positivity
    simp [hc, pyIntOfRat, h0]
  · simp [hc]

section SceneLemmas

lemma sceneLoop_map_some {Img : Type} (d : Img → Img → Rat) (t : Rat) :
    ∀ (l : List Img) (prev : Img) (i : Nat),
      sceneLoop d t prev i (l.map some) = .ok (sceneCuts d t prev i l)
  | [], _, _ => rfl
  | c :: rest, prev, i => by
    simp [sceneLoop, sceneCuts, sceneLoop_map_some d t rest c (i + 1),
      Except.map]

lemma detect_scenes_map_some {Img : Type} (d : Img → Img → Rat) (t : Rat)
    (f0 : Img) (rest : List Img) :
    detect_scenes d t ((f0 :: rest).map some)
      = .ok (segmentsOfCuts (rest.length + 1)
          (0 :: sceneCuts d t f0 1 rest)) := by
  simp [detect_scenes, sceneLoop_map_some, Except.map]

lemma segmentsOfCuts_map_start (N : Nat) :
    ∀ cuts : List Nat, (segmentsOfCuts N cuts).map Segment.start = cuts
  | [] => rfl
  | [_] => rfl
  | c :: c2 :: cs => by
    simp [segmentsOfCuts, segmentsOfCuts_map_start N (c2 :: cs)]

lemma segmentsOfCuts_last_stop (N : Nat) :
    ∀ (c : Nat) (cuts : List Nat),
      ((segmentsOfCuts N (c :: cuts)).map Segment.stop).getLast?
        = some (N - 1)
  | _, [] => rfl
  | c, c2 :: cs => by
    have ih := segmentsOfCuts_last_stop N c2 cs
    cases cs with
    | nil => rfl
    | cons c3 cs3 =>
      simp only [segmentsOfCuts, List.map_cons] at ih ⊢
      rw [List.getLast?_cons_cons]
      exact ih

lemma sceneCuts_nil {Img : Type} (d : Img → Img → Rat) (t : Rat) :
    ∀ (l : List Img) (prev : Img) (i : Nat),
      List.Chain' (fun a b => ¬ d a b > t) (prev :: l) →
      sceneCuts d t prev i l = []
  | [], _, _, _ => rfl
  | c :: rest, prev, i, h => by
    rw [List.chain'_cons] at h
    simp [sceneCuts, h.1, sceneCuts_nil d t rest c (i + 1) h.2]

end SceneLemmas

/-- C8: for every ordered frame sequence, the Shot Boundary Detector's
output segmentation starts its first segment at index 0, starts a new
segment at each detected cut, ends the last segment at the final frame
index, and yields exactly one segment (0, N-1) for an N-frame sequence
with zero detected cuts; an empty frame sequence yields an empty
segmentation, not an error. -/
theorem C8_shot_segmentation {Img : Type} (d : Img → Img → Rat) (t : Rat)
    (frames : List Img) :
    (frames = [] → detect_scenes d t (frames.map some) = .ok []) ∧
    (∀ f0 rest, frames = f0 :: rest →
      detect_scenes d t (frames.map some)
        = .ok (segmentsOfCuts frames.length (0 :: sceneCuts d t f0 1 rest)) ∧
      (segmentsOfCuts frames.length (0 :: sceneCuts d t f0 1 rest)).map
          Segment.start = 0 :: sceneCuts d t f0 1 rest ∧
      ((segmentsOfCuts frames.length (0 :: sceneCuts d t f0 1 rest)).map
          Segment.stop).getLast? = some (frames.length - 1) ∧
      (List.Chain' (fun a b => ¬ d a b > t) frames →
        detect_scenes d t (frames.map some)
          = .ok [⟨0, frames.length - 1⟩])) := by
  constructor
  · rintro rfl; rfl
  · rintro f0 rest rfl
    refine ⟨?_, segmentsOfCuts_map_start _ _, segmentsOfCuts_last_stop _ 0 _, ?_⟩
    · simpa using detect_scenes_map_some d t f0 rest
    · intro hchain
      rw [detect_scenes_map_some d t f0 rest,
        sceneCuts_nil d t rest f0 1 hchain]
      simp [segmentsOfCuts]

/-- Witness for C8: the empty sequence yields an empty segmentation,
and a concrete two-frame sequence yields the computed segmentation. -/
theorem C8_shot_segmentation_witness :
    (detect_scenes (fun _ _ : Nat => (0 : Rat)) (3/10)
        (([] : List Nat).map some) = .ok []) ∧
    detect_scenes (fun _ _ : Nat => (0 : Rat)) (3/10) ([0, 1].map some)
      = .ok (segmentsOfCuts 2
          (0 :: sceneCuts (fun _ _ : Nat => (0 : Rat)) (3/10) 0 1 [1])) :=
  ⟨(C8_shot_segmentation (fun _ _ => 0) (3/10) ([] : List Nat)).1 rfl,
   ((C8_shot_segmentation (fun _ _ => 0) (3/10) [0, 1]).2 0 [1] rfl).1⟩

section ParseLemmas

lemma pyIntList_eq_some :
    ∀ (parts : List String) (l : List Int),
      pyIntList parts = some l ↔ parts.map pyInt = l.map some := by
  intro parts
  induction parts with
  | nil => intro l; cases l <;> simp [pyIntList]
  | cons p ps ih =>
    intro l
    cases hp : pyInt p with
    | none => cases l <;> simp [pyIntList, hp]
    | some n =>
      cases l with
      | nil => simp [pyIntList, hp]
      | cons x xs =>
        constructor
        · intro h
          unfold pyIntList at h
          rw [hp] at h
          rcases Option.map_eq_some'.mp h with ⟨a, hps, hcons⟩
          injection hcons with h1 h2
          subst h1
          subst h2
          simp [List.map_cons, hp, (ih a).mp hps]
        · intro h
          rw [List.map_cons, List.map_cons] at h
          injection h with h1 h2
          rw [hp] at h1
          injection h1 with h1
          unfold pyIntList
          rw [hp, (ih xs).mpr h2, h1]
          rfl

lemma splitCharList_no_sep (sep : Char) :
    ∀ cs : List Char, sep ∉ cs → splitCharList sep cs = [cs]
  | [], _ => rfl
  | c :: rest, h => by
    have h2 := splitCharList_no_sep sep rest
      (fun hm => h (List.mem_cons_of_mem _ hm))
    have hc : ¬ c = sep := fun hc => h (hc ▸ List.mem_cons_self _ _)
    simp [splitCharList, hc, h2]

end ParseLemmas

/-- C10: for every probed frame-rate string that contains no slash
separator (for example "30"), frame-rate parsing raises, the exception
escapes the parsing step, and the entire preprocessing stage aborts
with the job set to failed, even though the container itself was
readable; only strings of the exact form "num/den" with integer parts
are parsed, with denominator 0 falling back to 30.0. -/
theorem C10_fps_parsing :
    (∀ s : String, Char.ofNat 47 ∉ s.data →
      ∃ e, parse_fps s = Except.error e) ∧
    (∀ (Img : Type) (env : PreEnv Img) (task : WorkTask) (p : ProbeData)
        (e : String),
      env.probe = .ok p → p.hasVideoStream = true →
      parse_fps p.r_frame_rate = .error e →
      (handle_preprocess env task).trace
        = [log "Started Preprocessing: Frame Extraction"]
            ++ genericErrTrace e ∧
      (handle_preprocess env task).queues = [] ∧
      ∀ clock j, (runTrace clock j (handle_preprocess env task).trace).status
        = "failed") ∧
    (∀ s q, parse_fps s = .ok q ↔
      ∃ n d : Int, (pySplit (Char.ofNat 47) s).map pyInt = [some n, some d]
        ∧ q = if d > 0 then (n : Rat) / (d : Rat) else 30) ∧
    parse_fps "30/1" = .ok 30 ∧
    parse_fps "24000/1001" = .ok (24000 / 1001) ∧
    parse_fps "30/0" = .ok 30 := by
  refine ⟨?_, ?_, ?_, by with_unfolding_all rfl, by with_unfolding_all rfl,
    by with_unfolding_all rfl⟩
  · intro s hs
    have hsplit : pySplit (Char.ofNat 47) s = [String.mk s.data] := by
      rw [pySplit, splitCharList_no_sep _ _ hs]
      rfl
    cases hp : pyInt (String.mk s.data) with
    | none =>
      refine ⟨"invalid literal for int() with base 10", ?_⟩
      rw [parse_fps, hsplit]
      simp [pyIntList, hp]
    | some n =>
      refine ⟨"not enough values to unpack (expected 2, got 1)", ?_⟩
      rw [parse_fps, hsplit]
      simp [pyIntList, hp]
  · intro Img env task p e hp hv herr
    have hout : handle_preprocess env task
        = ⟨[log "Started Preprocessing: Frame Extraction"]
            ++ genericErrTrace e, [], []⟩ := by
      simp [handle_preprocess, hp, hv, herr]
    refine ⟨by rw [hout], by rw [hout], ?_⟩
    intro clock j
    rw [hout, runTrace, applyTrace_status]
    simp [genericErrTrace, log]
  · intro s q
    constructor
    · intro h
      cases hl : pyIntList (pySplit (Char.ofNat 47) s) with
      | none =>
        simp only [parse_fps, hl] at h
        exact Except.noConfusion h
      | some l =>
        match l with
        | [] =>
          simp only [parse_fps, hl] at h
          exact Except.noConfusion h
        | [_] =>
          simp only [parse_fps, hl] at h
          exact Except.noConfusion h
        | [n, d] =>
          simp only [parse_fps, hl, Except.ok.injEq] at h
          exact ⟨n, d, by simpa using (pyIntList_eq_some _ _).mp hl, h.symm⟩
        | _ :: _ :: _ :: _ =>
          simp only [parse_fps, hl] at h
          exact Except.noConfusion h
    · rintro ⟨n, d, hmap, rfl⟩
      have hl : pyIntList (pySplit (Char.ofNat 47) s) = some [n, d] :=
        (pyIntList_eq_some _ _).mpr (by simpa using hmap)
      simp only [parse_fps, hl]

/-- Witness for C10: the concrete probe string "30" drives the
preprocess stage of a readable container to `failed`, and "6/2"
parses. -/
theorem C10_fps_parsing_witness :
    (∃ e, parse_fps "30" = Except.error e) ∧
    (handle_preprocess envC10 taskC10).queues = [] ∧
    (runTrace id jobQueued (handle_preprocess envC10 taskC10).trace).status
      = "failed" ∧
    parse_fps "6/2" = .ok 3 :=
  ⟨C10_fps_parsing.1 "30" (by decide),
   (C10_fps_parsing.2.1 Nat envC10 taskC10 ⟨true, 640, 480, "30", false⟩
      "not enough values to unpack (expected 2, got 1)" rfl rfl rfl).2.1,
   (C10_fps_parsing.2.1 Nat envC10 taskC10 ⟨true, 640, 480, "30", false⟩
      "not enough values to unpack (expected 2, got 1)" rfl rfl rfl).2.2
      id jobQueued,
   (C10_fps_parsing.2.2.1 "6/2" 3).mpr ⟨6, 2, by decide, by norm_num⟩⟩

/-- C3 counterexample: invoking the inference stage on a stored job
without a manifest leaves the job in its old status `preprocessed` —
it is not set to `failed` and no error field is written, contrary to
the claim; only a history entry is appended and the job is not pushed
onward. -/
theorem C3_counterexample :
    (handle_inference (fun _ => .ok "g") (some jobNoManifest)).queues = []
    ∧ (runTrace id jobNoManifest
        (handle_inference (fun _ => .ok "g") (some jobNoManifest)).trace).status
      = "preprocessed"
    ∧ ¬ (runTrace id jobNoManifest
        (handle_inference (fun _ => .ok "g") (some jobNoManifest)).trace).status
      = "failed"
    ∧ (runTrace id jobNoManifest
        (handle_inference (fun _ => .ok "g") (some jobNoManifest)).trace).error
      = none := by decide

/-- C3 (amended): for every job whose stored record lacks a manifest
(or whose manifest lacks the original-frame list) when the inference
stage is invoked, the stage appends a history entry carrying the
diagnostic "Inference Failed: Missing manifest or frames" and returns
without pushing the job to the postprocess queue, so the job does not
proceed to postprocessing; however the job's status is left unchanged
(in particular it is not set to failed) and no error field is
written. -/
theorem C3_missing_manifest (env : Nat → GenResult) (j : Job)
    (h : j.manifest = none
      ∨ ∃ m, j.manifest = some m ∧ m.gridfs_frames = none) :
    (handle_inference env (some j)).trace
      = [log "Started Inference",
         log "Inference Failed: Missing manifest or frames"] ∧
    (handle_inference env (some j)).queues = [] ∧
    ∀ clock,
      (runTrace clock j (handle_inference env (some j)).trace).status
        = j.status ∧
      (runTrace clock j (handle_inference env (some j)).trace).error
        = j.error ∧
      (runTrace clock j (handle_inference env (some j)).trace).history
        = j.history ++ histEntriesFrom clock 0
            ["Started Inference",
             "Inference Failed: Missing manifest or frames"] := by
  have hout : handle_inference env (some j)
      = ⟨[log "Started Inference",
          log "Inference Failed: Missing manifest or frames"], [], []⟩ := by
    rcases h with h | ⟨m, hm, hg⟩
    · simp [handle_inference, h]
    · simp [handle_inference, hm, hg]
  refine ⟨by rw [hout], by rw [hout], ?_⟩
  intro clock
  rw [hout]
  refine ⟨?_, ?_, ?_⟩
  · rw [runTrace, applyTrace_status]
    simp [log]
  · rw [runTrace, applyTrace_error]
    simp [log]
  · rw [runTrace, applyTrace_history]
    simp [pushesOf, log]

/-- Witness for C3 (amended) on the concrete manifest-less job. -/
theorem C3_missing_manifest_witness :
    (handle_inference (fun _ => GenResult.ok "g") (some jobNoManifest)).trace
      = [log "Started Inference",
         log "Inference Failed: Missing manifest or frames"] ∧
    (handle_inference (fun _ => GenResult.ok "g")
      (some jobNoManifest)).queues = [] ∧
    (runTrace id jobNoManifest (handle_inference (fun _ => GenResult.ok "g")
        (some jobNoManifest)).trace).status = jobNoManifest.status :=
  ⟨(C3_missing_manifest (fun _ => GenResult.ok "g") jobNoManifest
      (Or.inl rfl)).1,
   (C3_missing_manifest (fun _ => GenResult.ok "g") jobNoManifest
      (Or.inl rfl)).2.1,
   ((C3_missing_manifest (fun _ => GenResult.ok "g") jobNoManifest
      (Or.inl rfl)).2.2 id).1⟩

/-- C5 counterexample: the inference handler, invoked on a job whose
current status is the terminal `completed` (not the expected
`preprocessed`), is neither a no-op nor an error: it overwrites the
status to `inferred` and pushes the job to the postprocess queue. -/
theorem C5_counterexample :
    (runTrace id jobCompleted
        (handle_inference (fun _ => .ok "g") (some jobCompleted)).trace).status
      = "inferred"
    ∧ ¬ "inferred" = "completed"
    ∧ (handle_inference (fun _ => .ok "g") (some jobCompleted)).queues
      = ["postprocess_queue"] := by
  refine ⟨?_, by decide, ?_⟩
  · exact runTrace_inference_status _ jobCompleted manifest2 _ rfl rfl id
  · rw [handle_inference_eq _ jobCompleted manifest2 _ rfl rfl]
    rfl

/-- C5 (amended): the stage handlers perform no source-state
validation.  The inference handler proceeds on any job record carrying
a manifest frame list, whatever its current status, overwriting the
status with `inferred` and pushing the job to the postprocess queue;
the postprocess handler proceeds on any existing job record and, when
encoding succeeds, overwrites the status with `completed`. -/
theorem C5_no_status_validation (env : Nat → GenResult) (penv : PostEnv)
    (j : Job) (m : Manifest) (fr : List OrigFrame)
    (hm : j.manifest = some m) (hg : m.gridfs_frames = some fr)
    (henc : penv.encodeResult = .ok ()) :
    (∀ clock,
      (runTrace clock j (handle_inference env (some j)).trace).status
        = "inferred") ∧
    (handle_inference env (some j)).queues = [QUEUE_POSTPROCESS] ∧
    (∀ clock,
      (runTrace clock j (handle_postprocess penv (some j)).trace).status
        = "completed") := by
  refine ⟨fun clock => runTrace_inference_status env j m fr hm hg clock,
    ?_, fun clock => runTrace_postprocess_status_ok penv j henc clock⟩
  rw [handle_inference_eq env j m fr hm hg]

/-- Witness for C5 (amended) on the concrete completed job. -/
theorem C5_no_status_validation_witness :
    (runTrace id jobCompleted
        (handle_inference (fun _ => GenResult.ok "g")
          (some jobCompleted)).trace).status = "inferred" ∧
    (runTrace id jobCompleted
        (handle_postprocess postEnvC1 (some jobCompleted)).trace).status
      = "completed" :=
  ⟨((C5_no_status_validation (fun _ => GenResult.ok "g") postEnvC1
      jobCompleted manifest2 [⟨0, "a"⟩, ⟨1, "b"⟩] rfl rfl rfl).1 id),
   ((C5_no_status_validation (fun _ => GenResult.ok "g") postEnvC1
      jobCompleted manifest2 [⟨0, "a"⟩, ⟨1, "b"⟩] rfl rfl rfl).2.2 id)⟩

section HistoryLemmas

lemma histEntriesFrom_chain (clock : Nat → Nat) (hmono : StrictMono clock) :
    ∀ (ms : List String) (k : Nat),
      List.Chain' (fun a b : HistEntry => a.timestamp < b.timestamp)
        (histEntriesFrom clock k ms)
  | [], _ => List.chain'_nil
  | [_], _ => List.chain'_singleton _
  | _ :: m2 :: ms, k =>
    List.Chain'.cons (hmono (Nat.lt_succ_self k))
      (histEntriesFrom_chain clock hmono (m2 :: ms) (k + 1))

lemma runTrace_history_suffix (clock : Nat → Nat) (j : Job)
    (tr : List Update) :
    (runTrace clock j tr).history.drop j.history.length
      = histEntriesFrom clock 0 (pushesOf tr) := by
  rw [runTrace, applyTrace_history, List.drop_left]

lemma update_case_log (u : Update) (msg : String) (h : u = log msg) :
    (u.setStatus = some "preprocessed"
      → u.pushHist = ["frames_extracted_and_analyzed"])
    ∧ (u.setStatus = some "failed" → u.pushHist = []) := by
  subst h
  refine ⟨fun hs => ?_, fun hs => ?_⟩ <;> simp [log] at hs

lemma update_case_failed (u : Update) (e : String)
    (h : u = { setStatus := some "failed", setError := some e }) :
    (u.setStatus = some "preprocessed"
      → u.pushHist = ["frames_extracted_and_analyzed"])
    ∧ (u.setStatus = some "failed" → u.pushHist = []) := by
  subst h
  refine ⟨fun hs => ?_, fun _ => rfl⟩
  simp only [Option.some.injEq] at hs
  exact absurd hs (by decide)

lemma update_case_log2 (u : Update) (msg : String) (h : u = log msg) :
    (u.setStatus = some "completed" → u.pushHist = ["completed"])
    ∧ (u.setStatus = some "failed" → u.pushHist = []) := by
  subst h
  refine ⟨fun hs => ?_, fun hs => ?_⟩ <;> simp [log] at hs

lemma preprocessTail_status_push {Img : Type} (env : PreEnv Img)
    (task : WorkTask) (fps : Rat) (t : List Update) (u : Update)
    (ht : ∀ v ∈ t, ∃ m2, v = log m2)
    (hu : u ∈ (preprocessTail env task fps t).trace) :
    (u.setStatus = some "preprocessed"
      → u.pushHist = ["frames_extracted_and_analyzed"])
    ∧ (u.setStatus = some "failed" → u.pushHist = []) := by
  unfold preprocessTail at hu
  cases hav : analyze_video env.d env.mag env.frames fps with
  | error e =>
    simp only [hav] at hu
    simp only [genericErrTrace, List.mem_append, List.mem_cons,
      List.mem_singleton, List.not_mem_nil, or_false, or_assoc] at hu
    rcases hu with h | h | h | h
    · rcases ht u h with ⟨m2, hm2⟩
      exact update_case_log u m2 hm2
    · exact update_case_log u _ h
    · exact update_case_log u _ h
    · exact update_case_failed u _ h
  | ok analysis =>
    simp only [hav] at hu
    simp only [List.mem_append, List.mem_cons, List.mem_singleton,
      List.not_mem_nil, or_false, or_assoc] at hu
    rcases hu with h | h | h | h | h
    · rcases ht u h with ⟨m2, hm2⟩
      exact update_case_log u m2 hm2
    · exact update_case_log u _ h
    · exact update_case_log u _ h
    · subst h
      refine ⟨fun _ => rfl, fun hs => ?_⟩
      simp only [Option.some.injEq] at hs
      exact absurd hs (by decide)
    · exact update_case_log u _ h

lemma preprocess_status_push {Img : Type} (env : PreEnv Img)
    (task : WorkTask) (u : Update)
    (hu : u ∈ (handle_preprocess env task).trace) :
    (u.setStatus = some "preprocessed"
      → u.pushHist = ["frames_extracted_and_analyzed"])
    ∧ (u.setStatus = some "failed" → u.pushHist = []) := by
  cases hp : env.probe with
  | error e =>
    simp only [handle_preprocess, hp] at hu
    simp only [ffmpegErrTrace, List.mem_append, List.mem_cons,
      List.mem_singleton, List.not_mem_nil, or_false, or_assoc] at hu
    rcases hu with h | h | h
    · exact update_case_log u _ h
    · exact update_case_log u _ h
    · exact update_case_failed u _ h
  | ok p =>
    simp only [handle_preprocess, hp] at hu
    by_cases hv : p.hasVideoStream = false
    · rw [if_pos hv] at hu
      simp only [genericErrTrace, List.mem_append, List.mem_cons,
        List.mem_singleton, List.not_mem_nil, or_false, or_assoc] at hu
      rcases hu with h | h | h
      · exact update_case_log u _ h
      · exact update_case_log u _ h
      · exact update_case_failed u _ h
    · rw [if_neg hv] at hu
      cases hr : parse_fps p.r_frame_rate with
      | error e =>
        simp only [hr] at hu
        simp only [genericErrTrace, List.mem_append, List.mem_cons,
          List.mem_singleton, List.not_mem_nil, or_false, or_assoc] at hu
        rcases hu with h | h | h
        · exact update_case_log u _ h
        · exact update_case_log u _ h
        · exact update_case_failed u _ h
      | ok fps =>
        simp only [hr] at hu
        cases hx : env.extractFrames with
        | error e =>
          simp only [hx] at hu
          simp only [ffmpegErrTrace, List.mem_append, List.mem_cons,
            List.mem_singleton, List.not_mem_nil, or_false, or_assoc] at hu
          rcases hu with h | h | h | h
          · exact update_case_log u _ h
          · exact update_case_log u _ h
          · exact update_case_log u _ h
          · exact update_case_failed u _ h
        | ok unit1 =>
          simp only [hx] at hu
          by_cases ha : p.hasAudioStream
          · rw [if_pos ha] at hu
            cases hy : env.extractAudio with
            | error e =>
              simp only [hy] at hu
              simp only [ffmpegErrTrace, List.mem_append, List.mem_cons,
                List.mem_singleton, List.not_mem_nil, or_false, or_assoc] at hu
              rcases hu with h | h | h | h | h
              · exact update_case_log u _ h
              · exact update_case_log u _ h
              · exact update_case_log u _ h
              · exact update_case_log u _ h
              · exact update_case_failed u _ h
            | ok unit2 =>
              simp only [hy] at hu
              refine preprocessTail_status_push env task fps _ u ?_ hu
              intro v hv2
              simp only [List.mem_append, List.mem_cons, List.mem_singleton,
                List.not_mem_nil, or_false, or_assoc] at hv2
              rcases hv2 with h | h | h
              · exact ⟨_, h⟩
              · exact ⟨_, h⟩
              · exact ⟨_, h⟩
          · rw [if_neg ha] at hu
            refine preprocessTail_status_push env task fps _ u ?_ hu
            intro v hv2
            simp only [List.mem_append, List.mem_cons, List.mem_singleton,
              List.not_mem_nil, or_false, or_assoc] at hv2
            rcases hv2 with h | h
            · exact ⟨_, h⟩
            · exact ⟨_, h⟩

end HistoryLemmas

/-- C6 counterexample: a successful inference run performs a status
transition to `inferred` whose update pushes no history entry at all,
so not every status transition appends exactly one history entry. -/
theorem C6_counterexample :
    ∃ u ∈ (handle_inference (fun _ => GenResult.ok "g")
        (some jobCompleted)).trace,
      u.setStatus = some "inferred" ∧ u.pushHist = [] := by
  rw [handle_inference_eq (fun _ => GenResult.ok "g") jobCompleted manifest2
    _ rfl rfl]
  exact ⟨{ setStatus := some "inferred",
           setGenerated := some ((framePairs [⟨0, "a"⟩, ⟨1, "b"⟩]).filterMap
             (pairGen fun _ => GenResult.ok "g")) },
         by simp, rfl, rfl⟩

/-- C6 (amended): the transitions to `preprocessed` and to `completed`
each append exactly one history entry inside the same update
("frames_extracted_and_analyzed" and "completed" respectively); the
transitions to `inferred` and to `failed` append no history entry in
their status-setting update (diagnostic entries around them come from
separate log calls); and the history entries appended by a handler run
carry strictly increasing timestamps whenever the worker clock is
strictly monotone. -/
theorem C6_history_per_transition :
    (∀ (env : Nat → GenResult) (j : Job) (m : Manifest)
        (fr : List OrigFrame), j.manifest = some m →
      m.gridfs_frames = some fr →
      ∀ u ∈ (handle_inference env (some j)).trace,
        u.setStatus.isSome → u.pushHist = []) ∧
    (∀ (Img : Type) (env : PreEnv Img) (task : WorkTask),
      ∀ u ∈ (handle_preprocess env task).trace,
        (u.setStatus = some "preprocessed"
          → u.pushHist = ["frames_extracted_and_analyzed"])
        ∧ (u.setStatus = some "failed" → u.pushHist = [])) ∧
    (∀ (penv : PostEnv) (j : Job),
      ∀ u ∈ (handle_postprocess penv (some j)).trace,
        (u.setStatus = some "completed" → u.pushHist = ["completed"])
        ∧ (u.setStatus = some "failed" → u.pushHist = [])) ∧
    (∀ (clock : Nat → Nat), StrictMono clock → ∀ (j : Job)
        (tr : List Update),
      List.Chain' (fun a b : HistEntry => a.timestamp < b.timestamp)
        ((runTrace clock j tr).history.drop j.history.length)) := by
  refine ⟨?_, ?_, ?_, ?_⟩
  · intro env j m fr hm hg u hu hs
    rw [handle_inference_eq env j m fr hm hg] at hu
    simp only [List.mem_append, List.mem_cons, List.mem_singleton,
      List.not_mem_nil, or_false, or_assoc] at hu
    rcases hu with h | h | h | h | h
    · simp [h, log] at hs
    · simp [h, log] at hs
    · rw [List.mem_map] at h
      rcases h with ⟨p, _, rfl⟩
      simp [log] at hs
    · simp [h]
    · simp [h, log] at hs
  · exact fun Img env task u hu => preprocess_status_push env task u hu
  · intro penv j u hu
    cases henc : penv.encodeResult with
    | ok unit1 =>
      cases unit1
      rw [handle_postprocess_eq_ok penv j henc] at hu
      simp only [List.mem_append, List.mem_cons, List.mem_singleton,
        List.not_mem_nil, or_false, or_assoc] at hu
      rcases hu with h | h | h | h | h | h | h
      · exact update_case_log2 u _ h
      · exact update_case_log2 u _ h
      · rcases log_mem_flatten_map _ _ u h with ⟨m2, rfl⟩
        exact update_case_log2 _ m2 rfl
      · exact update_case_log2 u _ h
      · exact update_case_log2 u _ h
      · subst h
        refine ⟨fun _ => rfl, fun hs => ?_⟩
        simp only [Option.some.injEq] at hs
        exact absurd hs (by decide)
      · exact update_case_log2 u _ h
    | error e =>
      rw [handle_postprocess_eq_err penv j e henc] at hu
      simp only [List.mem_append, List.mem_cons, List.mem_singleton,
        List.not_mem_nil, or_false, or_assoc] at hu
      rcases hu with h | h | h | h | h | h
      · exact update_case_log2 u _ h
      · exact update_case_log2 u _ h
      · rcases log_mem_flatten_map _ _ u h with ⟨m2, rfl⟩
        exact update_case_log2 _ m2 rfl
      · exact update_case_log2 u _ h
      · exact update_case_log2 u _ h
      · subst h
        refine ⟨fun hs => ?_, fun _ => rfl⟩
        simp only [Option.some.injEq] at hs
        exact absurd hs (by decide)
  · intro clock hmono j tr
    rw [runTrace_history_suffix]
    exact histEntriesFrom_chain clock hmono (pushesOf tr) 0

/-- Witness for C6 (amended): concrete instantiations for the
inference-transition clause and the timestamp clause. -/
theorem C6_history_per_transition_witness :
    (({ setStatus := some "inferred",
        setGenerated := some ((framePairs [⟨0, "a"⟩, ⟨1, "b"⟩]).filterMap
          (pairGen fun _ => GenResult.ok "g")) } : Update)).pushHist = [] ∧
    List.Chain' (fun a b : HistEntry => a.timestamp < b.timestamp)
      ((runTrace id jobQueued [log "x", log "y"]).history.drop
        jobQueued.history.length) :=
  ⟨C6_history_per_transition.1 (fun _ => GenResult.ok "g") jobCompleted
      manifest2 [⟨0, "a"⟩, ⟨1, "b"⟩] rfl rfl _
      (by rw [handle_inference_eq (fun _ => GenResult.ok "g") jobCompleted
            manifest2 _ rfl rfl]
          simp) rfl,
   C6_history_per_transition.2.2.2 id (fun _ _ h => h) jobQueued
      [log "x", log "y"]⟩

section MotionLemmas

lemma motionLoop_error_of_none {Img : Type} (mag : Img → Img → Rat) :
    ∀ (fuel : Nat) (l : List (Option Img)) (prev : Img) (i p : Nat)
      (hfuel : l.length ≤ fuel) (hp : p < l.length), p % 5 = 0 →
      l.get ⟨p, hp⟩ = none →
      ∃ e, motionLoop mag 4 fuel prev i l = .error e := by
  intro fuel
  induction fuel with
  | zero =>
    intro l prev i p hfuel hp _ _
    omega
  | succ fuel ih =>
    intro l prev i p hfuel hp hmod hnone
    cases l with
    | nil => simp at hp
    | cons x rest =>
      cases x with
      | none => exact ⟨_, rfl⟩
      | some curr =>
        have hp0 : p ≠ 0 := by
          intro h
          subst h
          simp [List.get] at hnone
        obtain ⟨q, rfl⟩ : ∃ q, p = q + 1 := ⟨p - 1, by omega⟩
        have hq : q < rest.length := by
          simp only [List.length_cons] at hp
          omega
        have hnone2 : rest.get ⟨q, hq⟩ = none := hnone
        have hq4 : 4 ≤ q := by omega
        have hd : q - 4 < (rest.drop 4).length := by
          simp only [List.length_drop]
          omega
        have hnone3 : (rest.drop 4).get ⟨q - 4, hd⟩ = none := by
          rw [List.get_eq_getElem, List.getElem_drop]
          rw [List.get_eq_getElem] at hnone2
          have h44 : 4 + (q - 4) = q := by omega
          simp only [h44]
          exact hnone2
        obtain ⟨e, he⟩ := ih (rest.drop 4) curr (i + 5) (q - 4)
          (by simp only [List.length_drop]
              simp only [List.length_cons] at hfuel
              omega)
          hd (by omega) hnone3
        refine ⟨e, ?_⟩
        show (motionLoop mag 4 fuel curr (i + 4 + 1) (rest.drop 4)).map _
          = .error e
        rw [show i + 4 + 1 = i + 5 from rfl, he]
        rfl

end MotionLemmas

/-- C4 counterexample: a two-frame sequence whose second frame cannot
be decoded makes the Motion Analyzer raise (the stage aborts) instead
of skipping the frame and producing a score from the decodable
frames. -/
theorem C4_counterexample :
    analyze_motion_optical_flow (fun _ _ : Nat => (0 : Rat)) 5 [some 0, none]
      = .error "cv2.resize: source image is empty"
    ∧ exceptOk (analyze_motion_optical_flow (fun _ _ : Nat => (0 : Rat)) 5
        [some 0, none]) = false := by
  constructor <;> rfl

/-- C4 (amended): a frame the Motion Analyzer cannot decode is not
skipped: whenever an accessed frame (the first frame, or any frame at
an index congruent to 1 mod 5, the sampling stride being 5) is
undecodable, `analyze_motion_optical_flow` aborts with an error that
propagates out of the stage, rather than continuing with the next
sample. -/
theorem C4_decode_failure_aborts {Img : Type} (mag : Img → Img → Rat)
    (frames : List (Option Img))
    (h : (∃ (p : Nat) (hp : p < frames.length), p % 5 = 1
            ∧ frames.get ⟨p, hp⟩ = none)
         ∨ frames.head? = some none) :
    ∃ e, analyze_motion_optical_flow mag 5 frames = .error e := by
  cases frames with
  | nil =>
    rcases h with ⟨p, hp, _, _⟩ | h
    · simp at hp
    · simp at h
  | cons f0 rest =>
    cases f0 with
    | none => exact ⟨_, rfl⟩
    | some g0 =>
      rcases h with ⟨p, hp, hmod, hnone⟩ | h
      · obtain ⟨q, rfl⟩ : ∃ q, p = q + 1 := ⟨p - 1, by omega⟩
        have hq : q < rest.length := by
          simp only [List.length_cons] at hp
          omega
        have hnone2 : rest.get ⟨q, hq⟩ = none := hnone
        obtain ⟨e, he⟩ := motionLoop_error_of_none mag rest.length rest g0 1
          q le_rfl hq (by omega) hnone2
        refine ⟨e, ?_⟩
        show (motionLoop mag 4 rest.length g0 1 rest).map _ = .error e
        rw [he]
        rfl
      · simp at h

/-- Witness for C4 (amended) at the concrete input with an undecodable
second frame. -/
theorem C4_decode_failure_aborts_witness :
    ∃ e, analyze_motion_optical_flow (fun _ _ : Nat => (0 : Rat)) 5
      [some 0, none] = .error e :=
  C4_decode_failure_aborts (fun _ _ => 0) [some 0, none]
    (Or.inl ⟨1, by decide, by decide, rfl⟩)

/-- C2 counterexample: in the reconstruction of two original frames
plus one generated frame in which the fetch of original frame "a"
fails, the code records `output_fps = 30 * 3/2 = 45`, counting the
unresolved frame, while the claimed formula over resolved frames
(2 of 3 resolve) would give `30 * 2/2 = 30`. -/
theorem C2_counterexample :
    (runTrace id jobC2
        (handle_postprocess postEnvC2 (some jobC2)).trace).output_fps
      = some 45
    ∧ ¬ (45 : Rat) = 30
    ∧ (handle_postprocess postEnvC2 (some jobC2)).encoded.length = 2
    ∧ (30 : Rat) * ((2 : Rat) / (2 : Rat)) = 30 := by
  with_unfolding_all decide

/-- C2 (amended): for every reconstruction run that encodes
successfully, the recorded output frame rate equals
source_fps * (total merged frame count / original frame count) — the
numerator counts all merged frames, including those whose
content-reference resolution failed — with the fallback to source_fps
when the original count is 0; frames whose resolution fails are
omitted from the encoded output sequence but still count toward the
frame-rate numerator. -/
theorem C2_target_fps (penv : PostEnv) (clock : Nat → Nat) (j : Job)
    (henc : penv.encodeResult = .ok ()) :
    (runTrace clock j (handle_postprocess penv (some j)).trace).output_fps
      = some (targetFpsOf j)
    ∧ targetFpsOf j
      = (if (origFramesOf j).length > 0 then
          baseFpsOf j * ((((origFramesOf j).length
            + (genFramesOf j).length : Nat) : Rat)
            / (((origFramesOf j).length : Nat) : Rat))
        else baseFpsOf j)
    ∧ (handle_postprocess penv (some j)).encoded
      = (mergedFrames j).filter
          (fun f => exceptOk (penv.resolve f.file_id)) := by
  refine ⟨runTrace_postprocess_output_fps penv j henc clock, ?_, ?_⟩
  · unfold targetFpsOf
    have hlen : (mergedFrames j).length
        = (origFramesOf j).length + (genFramesOf j).length := by
      unfold mergedFrames
      rw [(List.perm_insertionSort _ _).length_eq]
      simp
    rw [hlen]
  · rw [handle_postprocess_eq_ok penv j henc]

/-- Witness for C2 (amended) on the concrete partially-resolving
repository. -/
theorem C2_target_fps_witness :
    (runTrace id jobC2
        (handle_postprocess postEnvC2 (some jobC2)).trace).output_fps
      = some (targetFpsOf jobC2)
    ∧ (handle_postprocess postEnvC2 (some jobC2)).encoded
      = (mergedFrames jobC2).filter
          (fun f => exceptOk (postEnvC2.resolve f.file_id)) :=
  ⟨(C2_target_fps postEnvC2 id jobC2 rfl).1,
   (C2_target_fps postEnvC2 id jobC2 rfl).2.2⟩

/-- C1 counterexample: in the 10-frame, 30fps, no-audio end-to-end run
where every pair request succeeds, the hardcoded demo pair cap of 5
means only 5 generated frames are produced, reconstruction merges 15
frames (not 19), and target_fps is 45.0 (not 57.0). -/
theorem C1_counterexample :
    (genFramesOf jobC1b).length = 5
    ∧ (mergedFrames jobC1b).length = 15
    ∧ ¬ (15 : Nat) = 19
    ∧ jobC1c.output_fps = some 45
    ∧ ¬ (45 : Rat) = 57
    ∧ jobC1c.status = "completed" := by
  with_unfolding_all decide

/-- C1 (amended): for a 10-frame, 30fps, no-audio input in which every
adjacent-pair generation request succeeds, the pipeline produces one
generated frame for each of the first min(9, 5) = 5 adjacent pairs
(the demo pair cap being the hardcoded 5), tagged with indices
i + 0.5; reconstruction therefore merges 10 + 5 = 15 total frames and
computes target_fps = 30 * 15/10 = 45.0, and the job completes. -/
theorem C1_demo_cap_pipeline :
    genFramesOf jobC1b
      = (List.range 5).map (fun i =>
          ⟨(i : Rat) + 1/2, "g" ++ toString i, "f" ++ toString i,
           "f" ++ toString (i + 1)⟩)
    ∧ (mergedFrames jobC1b).length = 10 + 5
    ∧ jobC1c.output_fps = some (30 * ((15 : Rat) / 10))
    ∧ jobC1c.status = "completed"
    ∧ outC1c.encoded.length = 15 := by
  with_unfolding_all decide

section CanonicalPairs

lemma canonFrames_sorted (putId : Nat → String) (n : Nat) :
    List.insertionSort (fun a b : OrigFrame => a.index ≤ b.index)
      (canonFrames putId n) = canonFrames putId n := by
  apply List.Sorted.insertionSort_eq
  unfold canonFrames
  rw [List.Sorted, List.pairwise_map]
  exact (List.pairwise_lt_range n).imp fun h => le_of_lt h

lemma map_range_zip_tail {α : Type} (f : Nat → α) (n : Nat) :
    ((List.range n).map f).zip (((List.range n).map f).tail)
      = (List.range (n - 1)).map (fun i => (f i, f (i + 1))) := by
  apply List.ext_getElem
  · simp [List.length_zip, List.length_tail]
  · intro i h1 h2
    simp [List.getElem_zip, List.getElem_tail, List.getElem_map,
      List.getElem_range]

lemma enum_map_range {α : Type} (g : Nat → α) (k : Nat) :
    ((List.range k).map g).enum = (List.range k).map (fun i => (i, g i)) := by
  apply List.ext_getElem
  · simp [List.enum_length]
  · intro i h1 h2
    simp [List.enum_eq_zip_range, List.getElem_zip, List.getElem_map,
      List.getElem_range]

lemma framePairs_canon (putId : Nat → String) (n : Nat) :
    framePairs (canonFrames putId n)
      = (List.range (min (n - 1) limit)).map
          (fun i => (i, OrigFrame.mk i (putId i),
            OrigFrame.mk (i + 1) (putId (i + 1)))) := by
  simp only [framePairs]
  rw [canonFrames_sorted]
  unfold canonFrames
  rw [map_range_zip_tail]
  rw [← List.map_take, List.take_range]
  rw [enum_map_range]
  rw [min_comm]

lemma natCast_ne_addHalf (a b : Nat) : ¬ ((a : Rat)) = (b : Rat) + 1/2 := by
  intro h
  have h2 : ((2 * a : Nat) : Rat) = ((2 * b + 1 : Nat) : Rat) := by
    push_cast
    linarith
  have h3 : 2 * a = 2 * b + 1 := Nat.cast_injective h2
  omega

lemma mergedFrames_chain (j : Job)
    (h : (((origFramesOf j).map (fun f => ((f.index : Nat) : Rat)))
      ++ (genFramesOf j).map GenFrame.index).Nodup) :
    List.Chain' (fun a b : Frame => a.index < b.index) (mergedFrames j) := by
  have hperm := List.perm_insertionSort
    (fun a b : Frame => a.index ≤ b.index)
    ((origFramesOf j).map (fun f => Frame.mk (f.index : Rat) f.file_id)
      ++ (genFramesOf j).map (fun g => Frame.mk g.index g.file_id))
  have hsorted := List.sorted_insertionSort
    (fun a b : Frame => a.index ≤ b.index)
    ((origFramesOf j).map (fun f => Frame.mk (f.index : Rat) f.file_id)
      ++ (genFramesOf j).map (fun g => Frame.mk g.index g.file_id))
  have hmap : ((origFramesOf j).map (fun f => Frame.mk (f.index : Rat) f.file_id)
      ++ (genFramesOf j).map (fun g => Frame.mk g.index g.file_id)).map
        Frame.index
      = ((origFramesOf j).map (fun f => ((f.index : Nat) : Rat)))
        ++ (genFramesOf j).map GenFrame.index := by
    rw [List.map_append, List.map_map, List.map_map]
    rfl
  have hnodup : ((mergedFrames j).map Frame.index).Nodup := by
    refine ((hperm.map Frame.index).nodup_iff).mpr ?_
    rw [hmap]
    exact h
  have hne : (mergedFrames j).Pairwise
      (fun a b : Frame => ¬ a.index = b.index) :=
    List.pairwise_map.mp hnodup
  have hlt : (mergedFrames j).Pairwise
      (fun a b : Frame => a.index < b.index) :=
    (hsorted.and hne).imp fun hab => lt_of_le_of_ne hab.1 hab.2
  exact hlt.chain'

lemma filterMap_pairGen_canon (env : Nat → GenResult) (putId : Nat → String)
    (n : Nat) :
    (framePairs (canonFrames putId n)).filterMap (pairGen env)
      = expectedGens env putId n := by
  rw [framePairs_canon, List.filterMap_map]
  rfl

lemma canon_scenario_nodup (env : Nat → GenResult) (putId : Nat → String)
    (N : Nat) (j : Job) (horig : origFramesOf j = canonFrames putId N)
    (hgen : genFramesOf j = expectedGens env putId N) :
    (((origFramesOf j).map (fun f => ((f.index : Nat) : Rat)))
      ++ (genFramesOf j).map GenFrame.index).Nodup := by
  rw [horig, hgen]
  rw [List.nodup_append]
  refine ⟨?_, ?_, ?_⟩
  · unfold canonFrames
    rw [List.map_map]
    have hcomp : ((fun f : OrigFrame => ((f.index : Nat) : Rat))
        ∘ fun idx => OrigFrame.mk idx (putId idx))
        = fun idx : Nat => ((idx : Nat) : Rat) := rfl
    rw [hcomp]
    exact (List.nodup_range N).map Nat.cast_injective
  · unfold expectedGens
    rw [List.map_filterMap]
    show List.Pairwise (fun x y : Rat => ¬ x = y) _
    rw [List.pairwise_filterMap]
    refine (List.pairwise_lt_range _).imp ?_
    intro a b hab x hx y hy
    cases hea : env a with
    | httpErr t => simp [hea] at hx
    | exn e2 => simp [hea] at hx
    | ok gid =>
      cases heb : env b with
      | httpErr t => simp [heb] at hy
      | exn e2 => simp [heb] at hy
      | ok gid2 =>
        simp only [hea, Option.map_some', Option.mem_def,
          Option.some.injEq] at hx
        simp only [heb, Option.map_some', Option.mem_def,
          Option.some.injEq] at hy
        intro heq
        rw [← hx, ← hy] at heq
        have heq2 : (a : Rat) + 1/2 = (b : Rat) + 1/2 := heq
        have heq3 : (a : Rat) = (b : Rat) := by linarith
        have heq4 : a = b := Nat.cast_injective heq3
        omega
  · intro x hx hy
    unfold canonFrames at hx
    rw [List.map_map] at hx
    rw [List.mem_map] at hx
    rcases hx with ⟨a, _, rfl⟩
    unfold expectedGens at hy
    rw [List.map_filterMap, List.mem_filterMap] at hy
    rcases hy with ⟨i, _, hyi⟩
    cases hei : env i with
    | ok gid =>
      simp only [hei, Option.map_some', Option.some.injEq] at hyi
      exact natCast_ne_addHalf a i hyi.symm
    | httpErr t => simp [hei] at hyi
    | exn e2 => simp [hei] at hyi

end CanonicalPairs

/-- C9: for every inference run in which some pairs' generation
requests fail (non-200 response or transport error) and others
succeed, each failed pair is logged and skipped without aborting the
stage, the job proceeds through postprocessing to completed (never
failed) with exactly the successfully generated frames, and the merged
frame sequence handed to encoding is strictly increasing by index. -/
theorem C9_partial_failure (env : Nat → GenResult) (penv : PostEnv)
    (clock : Nat → Nat) (j : Job) (m : Manifest) (putId : Nat → String)
    (N : Nat) (hm : j.manifest = some m)
    (hg : m.gridfs_frames = some (canonFrames putId N))
    (hfail : ∃ i, i < min (N - 1) limit ∧ genOk (env i) = false)
    (hsucc : ∃ i, i < min (N - 1) limit ∧ genOk (env i) = true)
    (hres : ∀ s, penv.resolve s = .ok ())
    (henc : penv.encodeResult = .ok ()) :
    (∀ i t, i < min (N - 1) limit → env i = .httpErr t →
      log ("Base Model error for pair " ++ toString i ++ ": " ++ t)
        ∈ (handle_inference env (some j)).trace) ∧
    (∀ i msg2, i < min (N - 1) limit → env i = .exn msg2 →
      log ("Error calling Base Model: " ++ msg2)
        ∈ (handle_inference env (some j)).trace) ∧
    (runTrace clock j (handle_inference env (some j)).trace).status
      = "inferred" ∧
    (handle_inference env (some j)).queues = [QUEUE_POSTPROCESS] ∧
    (runTrace clock j (handle_inference env (some j)).trace).generated_frames
      = some (expectedGens env putId N) ∧
    (∀ j2, j2 = runTrace clock j (handle_inference env (some j)).trace →
      (runTrace clock j2 (handle_postprocess penv (some j2)).trace).status
        = "completed" ∧
      ¬ (runTrace clock j2
          (handle_postprocess penv (some j2)).trace).status = "failed" ∧
      (handle_postprocess penv (some j2)).encoded = mergedFrames j2 ∧
      List.Chain' (fun a b : Frame => a.index < b.index)
        ((handle_postprocess penv (some j2)).encoded)) := by
  have htrace := handle_inference_eq env j m (canonFrames putId N) hm hg
  refine ⟨?_, ?_, runTrace_inference_status env j m _ hm hg clock,
    by rw [htrace], ?_, ?_⟩
  · intro i t hi he
    rw [htrace]
    refine List.mem_append_left _ (List.mem_append_right _ ?_)
    rw [framePairs_canon, List.map_map]
    refine List.mem_map.mpr ⟨i, List.mem_range.mpr hi, ?_⟩
    simp [Function.comp, pairMsg, he]
  · intro i msg2 hi he
    rw [htrace]
    refine List.mem_append_left _ (List.mem_append_right _ ?_)
    rw [framePairs_canon, List.map_map]
    refine List.mem_map.mpr ⟨i, List.mem_range.mpr hi, ?_⟩
    simp [Function.comp, pairMsg, he]
  · rw [runTrace_inference_generated env j m _ hm hg clock,
      filterMap_pairGen_canon]
  · intro j2 hj2
    have hman : j2.manifest = some m := by
      rw [hj2, runTrace_inference_manifest env j m _ hm hg clock]
      exact hm
    have ho2 : origFramesOf j2 = canonFrames putId N := by
      simp [origFramesOf, hman, hg]
    have hgen2 : genFramesOf j2 = expectedGens env putId N := by
      unfold genFramesOf
      rw [hj2, runTrace_inference_generated env j m _ hm hg clock,
        filterMap_pairGen_canon]
      rfl
    have henc2 : (handle_postprocess penv (some j2)).encoded
        = mergedFrames j2 := by
      rw [handle_postprocess_eq_ok penv j2 henc]
      show (mergedFrames j2).filter
          (fun f => exceptOk (penv.resolve f.file_id)) = mergedFrames j2
      apply List.filter_eq_self.mpr
      intro a _
      rw [hres a.file_id]
      rfl
    refine ⟨runTrace_postprocess_status_ok penv j2 henc clock, ?_, henc2,
      ?_⟩
    · rw [runTrace_postprocess_status_ok penv j2 henc clock]
      decide
    · rw [henc2]
      exact mergedFrames_chain j2
        (canon_scenario_nodup env putId N j2 ho2 hgen2)

/-- Witness for C9 on a concrete 6-frame manifest where pair 2 gets a
non-200 response and the other pairs succeed. -/
theorem C9_partial_failure_witness :
    (runTrace id jobC9 (handle_inference envC9 (some jobC9)).trace).status
      = "inferred"
    ∧ (runTrace id jobC9b
        (handle_postprocess postEnvC9 (some jobC9b)).trace).status
      = "completed"
    ∧ List.Chain' (fun a b : Frame => a.index < b.index)
        ((handle_postprocess postEnvC9 (some jobC9b)).encoded) := by
  have h := C9_partial_failure envC9 postEnvC9 id jobC9 manifestC9 fidC9 6
    rfl rfl ⟨2, by decide, by decide⟩ ⟨0, by decide, by decide⟩
    (fun s => rfl) rfl
  exact ⟨h.2.2.1, (h.2.2.2.2.2 jobC9b rfl).1,
    (h.2.2.2.2.2 jobC9b rfl).2.2.2⟩

end FluxFrame
